import Mathlib

/-!
# Verification of the `tax-ids` VAT validation/verification library

This file shallowly embeds the core of the `tax-ids` Rust crate:

* the per-country syntax registry of anchored regular expressions and the
  syntax-validation entry points (`src/lib.rs`, `src/syntax.rs`,
  `src/eu_vat/syntax.rs`, `src/gb_vat/mod.rs`);
* the country-to-provider dispatch of `TaxId::new` (`src/lib.rs`) and the
  EU country-code normalization (`src/eu_vat/mod.rs`);
* the four provider response parsers: BFS (`src/ch_vat/bfs.rs`),
  VIES (`src/eu_vat/vies.rs`), HMRC (`src/gb_vat/hmrc.rs`) and
  BRREG (`src/no_vat/brreg.rs`) together with the XML flattening and the
  recursive JSON key translation they use.

Strings are modelled as Lean `String`; the claims under study restrict
inputs to ASCII, where Rust's byte indices (`&value[0..2]`, `&value[2..]`)
coincide with character indices, so Rust slicing is modelled with
`String.take` / `String.drop`.  A Rust panic (out-of-bounds slice,
`Option::unwrap` on `None`) is modelled by returning `none` from an
`Option`-typed embedding.
-/

/-! ## Regular expressions

The Rust crate compiles its patterns with the `regex` crate.  Patterns are
embedded as a small regular-expression syntax together with a standard
Brzozowski-derivative matcher; each source pattern is transcribed
constructor-by-constructor below.  All source patterns are anchored
(`^...$`), so `Rx.matches` is whole-string matching, as `Regex::is_match`
is for them.
-/

inductive Rx where
  | emp : Rx
  | eps : Rx
  | sym (p : Char → Bool) : Rx
  | cat (a b : Rx) : Rx
  | alt (a b : Rx) : Rx
  | star (a : Rx) : Rx

namespace Rx

def nullable : Rx → Bool
  | .emp => false
  | .eps => true
  | .sym _ => false
  | .cat a b => nullable a && nullable b
  | .alt a b => nullable a || nullable b
  | .star _ => true

/-- Smart sequencing used only inside the derivative to keep terms small. -/
def mkCat : Rx → Rx → Rx
  | .emp, _ => .emp
  | _, .emp => .emp
  | .eps, b => b
  | a, .eps => a
  | a, b => .cat a b

/-- Smart alternation used only inside the derivative to keep terms small. -/
def mkAlt : Rx → Rx → Rx
  | .emp, b => b
  | a, .emp => a
  | a, b => .alt a b

def deriv (c : Char) : Rx → Rx
  | .emp => .emp
  | .eps => .emp
  | .sym p => if p c then .eps else .emp
  | .cat a b =>
      if nullable a then mkAlt (mkCat (deriv c a) b) (deriv c b)
      else mkCat (deriv c a) b
  | .alt a b => mkAlt (deriv c a) (deriv c b)
  | .star a => mkCat (deriv c a) (.star a)

def rmatch (r : Rx) (s : String) : Bool :=
  nullable (s.data.foldl (fun r c => deriv c r) r)

/-- A single literal character. -/
def chr (c : Char) : Rx := .sym (fun x => x == c)

/-- A literal string of characters in sequence. -/
def strLit (s : String) : Rx := s.data.foldr (fun c r => .cat (chr c) r) .eps

/-- Sequencing of a list of regexes. -/
def cats (l : List Rx) : Rx := l.foldr .cat .eps

/-- Alternation of a list of regexes. -/
def alts (l : List Rx) : Rx := l.foldr .alt .emp

/-- A character class given by an inclusive range, e.g. `[0-9]`. -/
def range (lo hi : Char) : Rx := .sym (fun c => decide (lo ≤ c) && decide (c ≤ hi))

/-- `r{n}`: exactly `n` repetitions. -/
def rep (r : Rx) (n : Nat) : Rx := cats (List.replicate n r)

/-- `r?`: zero or one occurrence. -/
def opt (r : Rx) : Rx := .alt .eps r

/-- `r{n,m}`: between `n` and `m` repetitions. -/
def repRange (r : Rx) (n m : Nat) : Rx := .cat (rep r n) (rep (opt r) (m - n))

/-- `[0-9]`. -/
def digit : Rx := range '0' '9'

/-- `[A-Z]`. -/
def upper : Rx := range 'A' 'Z'

/-- `\s` (whitespace). -/
def white : Rx := .sym Char.isWhitespace

end Rx

/-! ## The syntax registry

Each pattern below transcribes one `Regex::new(r"...")` literal of the
source.  `src/eu_vat/syntax.rs` holds the EU map, `src/gb_vat/mod.rs` the
GB map.  The repository keeps two historical snapshots of the Swiss and
Norwegian variants; the snapshot with a `syntax_map` is not under `src/`,
but the identical regexes appear in `src/ch_vat/mod.rs` and
`src/no_vat/mod.rs` (`ensure_valid_syntax`) and in the spec (§4.1), which
also fixes the keys `CH` and `NO`.
-/

namespace EuVatPatterns

/-- `^ATU[0-9]{8}$` -/
def atPat : Rx := Rx.cats [Rx.strLit "ATU", Rx.rep Rx.digit 8]

/-- `^BE[0-1][0-9]{9}$` -/
def bePat : Rx := Rx.cats [Rx.strLit "BE", Rx.range '0' '1', Rx.rep Rx.digit 9]

/-- `^BG[0-9]{9,10}$` -/
def bgPat : Rx := Rx.cats [Rx.strLit "BG", Rx.repRange Rx.digit 9 10]

/-- `^CY[0-69][0-9]{7}[A-Z]$` -/
def cyPat : Rx :=
  Rx.cats [Rx.strLit "CY", Rx.alt (Rx.range '0' '6') (Rx.chr '9'),
    Rx.rep Rx.digit 7, Rx.upper]

/-- `^CZ[0-9]{8,10}$` -/
def czPat : Rx := Rx.cats [Rx.strLit "CZ", Rx.repRange Rx.digit 8 10]

/-- `^DE[0-9]{9}$` -/
def dePat : Rx := Rx.cats [Rx.strLit "DE", Rx.rep Rx.digit 9]

/-- `^DK[0-9]{8}$` -/
def dkPat : Rx := Rx.cats [Rx.strLit "DK", Rx.rep Rx.digit 8]

/-- `^EE10[0-9]{7}$` -/
def eePat : Rx := Rx.cats [Rx.strLit "EE10", Rx.rep Rx.digit 7]

/-- `^EL[0-9]{9}$` -/
def elPat : Rx := Rx.cats [Rx.strLit "EL", Rx.rep Rx.digit 9]

/-- `^ES([A-Z][0-9]{8}|[0-9]{8}[A-Z]|[A-Z][0-9]{7}[A-Z])$` -/
def esPat : Rx :=
  Rx.cat (Rx.strLit "ES") (Rx.alts [
    Rx.cats [Rx.upper, Rx.rep Rx.digit 8],
    Rx.cats [Rx.rep Rx.digit 8, Rx.upper],
    Rx.cats [Rx.upper, Rx.rep Rx.digit 7, Rx.upper]])

/-- `^FI[0-9]{8}$` -/
def fiPat : Rx := Rx.cats [Rx.strLit "FI", Rx.rep Rx.digit 8]

/-- The class `[A-HJ-NP-Z0-9]`. -/
def frClass : Rx :=
  Rx.alts [Rx.range 'A' 'H', Rx.range 'J' 'N', Rx.range 'P' 'Z', Rx.digit]

/-- `^FR[A-HJ-NP-Z0-9]{2}[0-9]{9}$` -/
def frPat : Rx := Rx.cats [Rx.strLit "FR", Rx.rep frClass 2, Rx.rep Rx.digit 9]

/-- `^HR[0-9]{11}$` -/
def hrPat : Rx := Rx.cats [Rx.strLit "HR", Rx.rep Rx.digit 11]

/-- `^HU[0-9]{8}$` -/
def huPat : Rx := Rx.cats [Rx.strLit "HU", Rx.rep Rx.digit 8]

/-- `^IE([0-9][A-Z][0-9]{5}|[0-9]{7}[A-Z]?)[A-Z]$` -/
def iePat : Rx :=
  Rx.cats [Rx.strLit "IE",
    Rx.alt (Rx.cats [Rx.digit, Rx.upper, Rx.rep Rx.digit 5])
           (Rx.cats [Rx.rep Rx.digit 7, Rx.opt Rx.upper]),
    Rx.upper]

/-- `^IT[0-9]{11}$` -/
def itPat : Rx := Rx.cats [Rx.strLit "IT", Rx.rep Rx.digit 11]

/-- `^LT([0-9]{7}1[0-9]|[0-9]{10}1[0-9])$` -/
def ltPat : Rx :=
  Rx.cat (Rx.strLit "LT")
    (Rx.alt (Rx.cats [Rx.rep Rx.digit 7, Rx.chr '1', Rx.digit])
            (Rx.cats [Rx.rep Rx.digit 10, Rx.chr '1', Rx.digit]))

/-- `^LU[0-9]{8}$` -/
def luPat : Rx := Rx.cats [Rx.strLit "LU", Rx.rep Rx.digit 8]

/-- `^LV[0-9]{11}$` -/
def lvPat : Rx := Rx.cats [Rx.strLit "LV", Rx.rep Rx.digit 11]

/-- `^MT[0-9]{8}$` -/
def mtPat : Rx := Rx.cats [Rx.strLit "MT", Rx.rep Rx.digit 8]

/-- `^NL[0-9]{9}B[0-9]{2}$` -/
def nlPat : Rx :=
  Rx.cats [Rx.strLit "NL", Rx.rep Rx.digit 9, Rx.chr 'B', Rx.rep Rx.digit 2]

/-- `^PL[0-9]{10}$` -/
def plPat : Rx := Rx.cats [Rx.strLit "PL", Rx.rep Rx.digit 10]

/-- `^PT[0-9]{9}$` -/
def ptPat : Rx := Rx.cats [Rx.strLit "PT", Rx.rep Rx.digit 9]

/-- `^RO[1-9][0-9]{1,9}$` -/
def roPat : Rx := Rx.cats [Rx.strLit "RO", Rx.range '1' '9', Rx.repRange Rx.digit 1 9]

/-- `^SE[0-9]{10}01$` -/
def sePat : Rx := Rx.cats [Rx.strLit "SE", Rx.rep Rx.digit 10, Rx.strLit "01"]

/-- `^SI[0-9]{8}$` -/
def siPat : Rx := Rx.cats [Rx.strLit "SI", Rx.rep Rx.digit 8]

/-- `^SK[0-9]{10}$` -/
def skPat : Rx := Rx.cats [Rx.strLit "SK", Rx.rep Rx.digit 10]

/-- `^XI([0-9]{9}|[0-9]{12}|(HA|GD)[0-9]{3})$` -/
def xiPat : Rx :=
  Rx.cat (Rx.strLit "XI")
    (Rx.alts [Rx.rep Rx.digit 9, Rx.rep Rx.digit 12,
      Rx.cat (Rx.alt (Rx.strLit "HA") (Rx.strLit "GD")) (Rx.rep Rx.digit 3)])

end EuVatPatterns

/-- The EU syntax map `EU_VAT_PATTERNS` of `src/eu_vat/syntax.rs`, as an
association list keyed by country code. -/
def EU_VAT_PATTERNS : List (String × Rx) := [
  ("AT", EuVatPatterns.atPat), ("BE", EuVatPatterns.bePat), ("BG", EuVatPatterns.bgPat),
  ("CY", EuVatPatterns.cyPat), ("CZ", EuVatPatterns.czPat), ("DE", EuVatPatterns.dePat),
  ("DK", EuVatPatterns.dkPat), ("EE", EuVatPatterns.eePat), ("EL", EuVatPatterns.elPat),
  ("ES", EuVatPatterns.esPat), ("FI", EuVatPatterns.fiPat), ("FR", EuVatPatterns.frPat),
  ("HR", EuVatPatterns.hrPat), ("HU", EuVatPatterns.huPat), ("IE", EuVatPatterns.iePat),
  ("IT", EuVatPatterns.itPat), ("LT", EuVatPatterns.ltPat), ("LU", EuVatPatterns.luPat),
  ("LV", EuVatPatterns.lvPat), ("MT", EuVatPatterns.mtPat), ("NL", EuVatPatterns.nlPat),
  ("PL", EuVatPatterns.plPat), ("PT", EuVatPatterns.ptPat), ("RO", EuVatPatterns.roPat),
  ("SE", EuVatPatterns.sePat), ("SI", EuVatPatterns.siPat), ("SK", EuVatPatterns.skPat),
  ("XI", EuVatPatterns.xiPat)]

/-- `^GB([0-9]{9}|[0-9]{12}|(HA|GD)[0-9]{3})$` (`src/gb_vat/mod.rs`). -/
def gbPat : Rx :=
  Rx.cat (Rx.strLit "GB")
    (Rx.alts [Rx.rep Rx.digit 9, Rx.rep Rx.digit 12,
      Rx.cat (Rx.alt (Rx.strLit "HA") (Rx.strLit "GD")) (Rx.rep Rx.digit 3)])

/-- The GB syntax map `GB_VAT_PATTERN` of `src/gb_vat/mod.rs`. -/
def GB_VAT_PATTERN : List (String × Rx) := [("GB", gbPat)]

/-- Modelled from the spec: the `syntax_map` of the Swiss variant is not
under `src/` (only the older `ensure_valid_syntax` snapshot is); spec §4.1
gives the pattern
`^CHE([0-9]{9}|-[0-9]{3}(\.[0-9]{3}){2})(?:\s(MWST|TVA|IVA))?$` — identical
to the regex in `src/ch_vat/mod.rs` — keyed by `CH`. -/
def chPat : Rx :=
  Rx.cats [Rx.strLit "CHE",
    Rx.alt (Rx.rep Rx.digit 9)
      (Rx.cats [Rx.chr '-', Rx.rep Rx.digit 3,
        Rx.rep (Rx.cat (Rx.chr '.') (Rx.rep Rx.digit 3)) 2]),
    Rx.opt (Rx.cat Rx.white
      (Rx.alts [Rx.strLit "MWST", Rx.strLit "TVA", Rx.strLit "IVA"]))]

/-- Modelled from the spec: the Swiss variant's one-entry syntax map. -/
def CH_VAT_PATTERN : List (String × Rx) := [("CH", chPat)]

/-- Modelled from the spec: the `syntax_map` of the Norwegian variant is
not under `src/`; spec §4.1 gives the pattern `^NO[0-9]{9}(MVA)?$` —
identical to the regex in `src/no_vat/mod.rs` — keyed by `NO`. -/
def noPat : Rx :=
  Rx.cats [Rx.strLit "NO", Rx.rep Rx.digit 9, Rx.opt (Rx.strLit "MVA")]

/-- Modelled from the spec: the Norwegian variant's one-entry syntax map. -/
def NO_VAT_PATTERN : List (String × Rx) := [("NO", noPat)]

/-- The process-wide registry `SYNTAX` of `src/syntax.rs`: the union of the
variants' syntax maps, inserted in the order `GbVat, ChVat, NoVat, EuVat`.
All keys are distinct, so an association list models the `HashMap`. -/
def SYNTAX : List (String × Rx) :=
  GB_VAT_PATTERN ++ CH_VAT_PATTERN ++ NO_VAT_PATTERN ++ EU_VAT_PATTERNS

/-! ## Errors and the dispatch of `TaxId` (`src/lib.rs`)

`ValidationError` is embedded with the constructors `lib.rs` uses
(`UnsupportedCountryCode(String)`, `InvalidSyntax`); the `errors.rs` under
`src/` is an older snapshot (a plain message struct) that does not match
the cited code, so the enum shape is taken from its uses in `lib.rs`.
`VerificationError` is the union of the variants used by the four provider
modules; the payloads of `HttpError`, `XmlParsingError` and
`JsonParsingError` are external library errors and are not modelled. -/

deriving instance DecidableEq for Except

inductive ValidationError where
  | UnsupportedCountryCode (code : String) : ValidationError
  | InvalidSyntax : ValidationError
deriving DecidableEq

inductive VerificationError where
  | HttpError : VerificationError
  | XmlParsingError : VerificationError
  | JsonParsingError : VerificationError
  | UnexpectedResponse (msg : String) : VerificationError
  | UnexpectedStatusCode (code : Nat) : VerificationError
deriving DecidableEq

/-- The EU country list `COUNTRIES` of `src/eu_vat/mod.rs`. -/
def COUNTRIES : List String := [
  "AT", "BE", "BG", "CY", "CZ", "DE", "DK", "EE", "EL", "ES", "FI", "FR",
  "HR", "HU", "IE", "IT", "LT", "LU", "LV", "MT", "NL", "PL", "PT", "RO",
  "SE", "SI", "SK", "XI"]

/-- The provider variants (`Box<dyn TaxIdType>` targets of `TaxId::new`). -/
inductive IdType where
  | gbVat : IdType
  | chVat : IdType
  | noVat : IdType
  | euVat : IdType
deriving DecidableEq

/-- `EuVat::country_code_from` (`src/eu_vat/mod.rs`, lines 30–38):
`XI → GB`, `EL → GR`, identity otherwise. -/
def EuVat.country_code_from (tax_country_code : String) : String :=
  if tax_country_code = "XI" then "GB"
  else if tax_country_code = "EL" then "GR"
  else tax_country_code

/-- `country_code_from_tax_country` of each variant: identity for GB, CH
and NO (`src/gb_vat/mod.rs`, `src/ch_vat/mod.rs`, `src/no_vat/mod.rs`);
the EU variant applies `EuVat.country_code_from`. -/
def IdType.country_code_from_tax_country : IdType → String → String
  | .euVat, tcc => EuVat.country_code_from tcc
  | _, tcc => tcc

/-- The `syntax_map()` of each variant. -/
def IdType.syntax_map : IdType → List (String × Rx)
  | .gbVat => GB_VAT_PATTERN
  | .chVat => CH_VAT_PATTERN
  | .noVat => NO_VAT_PATTERN
  | .euVat => EU_VAT_PATTERNS

/-- The default trait method `TaxIdType::validate_syntax`
(`src/lib.rs`, lines 34–45): slice the 2-char prefix (a panic — modelled
as `none` — on strings shorter than 2 bytes), look it up in the variant's
own syntax map, then match the whole string. -/
def IdType.validate_syntax (t : IdType) (value : String) :
    Option (Except ValidationError Unit) :=
  if 2 ≤ value.length then
    some (match (t.syntax_map).lookup (value.take 2) with
      | none => .error (.UnsupportedCountryCode (value.take 2))
      | some pattern => if pattern.rmatch value then .ok () else .error .InvalidSyntax)
  else none

/-- The validated value object built by `TaxId::new`. -/
structure TaxId where
  value : String
  country_code : String
  tax_country_code : String
  local_value : String
  id_type : IdType
deriving DecidableEq

/-- `TaxId::validate_syntax` (`src/lib.rs`, lines 69–80): slice the 2-char
prefix (`&value[0..2]`, a panic — modelled as `none` — on strings shorter
than 2 bytes), look it up in the global `SYNTAX` registry
(`UnsupportedCountryCode` if absent), then match the whole string
(`InvalidSyntax` on mismatch). -/
def TaxId.validate_syntax (value : String) : Option (Except ValidationError Unit) :=
  if 2 ≤ value.length then
    some (match SYNTAX.lookup (value.take 2) with
      | none => .error (.UnsupportedCountryCode (value.take 2))
      | some pat => if pat.rmatch value then .ok () else .error .InvalidSyntax)
  else none

/-- The `match tax_country_code` of `TaxId::new`: the literal arms `GB`,
`CH`, `NO` (in source order), then the guard arm testing membership in the
EU `COUNTRIES` list; `none` is the `UnsupportedCountryCode` arm. -/
def dispatch (tax_country_code : String) : Option IdType :=
  if tax_country_code = "GB" then some .gbVat
  else if tax_country_code = "CH" then some .chVat
  else if tax_country_code = "NO" then some .noVat
  else if COUNTRIES.contains tax_country_code then some .euVat
  else none

/-- The tail of `TaxId::new` after `id_type.validate_syntax(value)?`
(given as the argument): propagate the error, or construct the value
object. -/
def afterValidate (value : String) (t : IdType) :
    Option (Except ValidationError Unit) → Option (Except ValidationError TaxId)
  | none => none
  | some (.error e) => some (.error e)
  | some (.ok ()) => some (.ok {
      country_code := t.country_code_from_tax_country (value.take 2),
      value := value,
      tax_country_code := value.take 2,
      local_value := value.drop 2,
      id_type := t })

/-- The body of `TaxId::new` after the dispatch (given as the argument). -/
def afterDispatch (value : String) :
    Option IdType → Option (Except ValidationError TaxId)
  | none => some (.error (.UnsupportedCountryCode (value.take 2)))
  | some t => afterValidate value t ( IdType.validate_syntax t value)

/-- `TaxId::new` (`src/lib.rs`, lines 82–107): slice prefix and remainder
(panics — modelled as `none` — on strings shorter than 2 bytes), dispatch
on the prefix (literal `GB`/`CH`/`NO`, else membership in `COUNTRIES`,
else `UnsupportedCountryCode`), validate against the chosen variant's own
syntax map, and construct the value object. -/
def TaxId.new (value : String) : Option (Except ValidationError TaxId) :=
  if 2 ≤ value.length then
    afterDispatch value (dispatch (value.take 2))
  else none


/-! ## JSON values

`serde_json::Value` is embedded as a mutual inductive so that the
recursive key translation and the parsers are structurally recursive
(hence kernel-computable).  An object is a finite sequence of key/value
pairs with the lookup of the first matching key; `serde_json` maps have
unique keys, so this models `Map::get`.  Numbers are modelled as integers
(no claim involves non-integer numbers). -/

mutual
inductive Json where
  | null : Json
  | bool (b : Bool) : Json
  | num (n : Int) : Json
  | str (s : String) : Json
  | arr (xs : JsonList) : Json
  | obj (fields : JsonObj) : Json
deriving DecidableEq
inductive JsonList where
  | nil : JsonList
  | cons (hd : Json) (tl : JsonList) : JsonList
deriving DecidableEq
inductive JsonObj where
  | nil : JsonObj
  | cons (k : String) (v : Json) (tl : JsonObj) : JsonObj
deriving DecidableEq
end

/-- `Map::get`: the value of the first field with the given key. -/
def JsonObj.get (k : String) : JsonObj → Option Json
  | .nil => none
  | .cons k' v t => if k' == k then some v else t.get k

/-- `Value::as_str`. -/
def Json.as_str : Json → Option String
  | .str s => some s
  | _ => none

/-- `Value::as_bool`. -/
def Json.as_bool : Json → Option Bool
  | .bool b => some b
  | _ => none

/-- `json!(x)` for an `Option` (`None` serializes to JSON `null`). -/
def Json.ofOption : Option Json → Json
  | none => .null
  | some j => j

/-! ## Verification outcomes (`src/verification.rs`)

The cited `src/verification.rs` defines `VerificationStatus` with
`Unavailable(UnavailableReason)`; the BFS and HMRC modules under `src/`
are from the snapshot in which `Unavailable` carried no reason, so a
second, reason-free status type is embedded for them.  `performed_at` is a
wall-clock timestamp and is outside the embedding; a `Verification` is its
status and its JSON payload. -/

inductive UnavailableReason where
  | ServiceUnavailable : UnavailableReason
  | Timeout : UnavailableReason
  | Block : UnavailableReason
  | RateLimit : UnavailableReason
deriving DecidableEq

inductive VerificationStatus where
  | Verified : VerificationStatus
  | Unverified : VerificationStatus
  | Unavailable (reason : UnavailableReason) : VerificationStatus
deriving DecidableEq

structure Verification where
  status : VerificationStatus
  data : Json
deriving DecidableEq

/-- The status type of the snapshot `src/ch_vat/bfs.rs` and
`src/gb_vat/hmrc.rs` compile against: `Unavailable` carries no reason. -/
inductive SimpleStatus where
  | Verified : SimpleStatus
  | Unverified : SimpleStatus
  | Unavailable : SimpleStatus
deriving DecidableEq

structure SimpleVerification where
  status : SimpleStatus
  data : Json
deriving DecidableEq

/-! ## HMRC (`src/gb_vat/hmrc.rs`) -/

namespace Hmrc

/-- `Hmrc::parse_response` (`src/gb_vat/hmrc.rs`, lines 33–61).  The body
is given as the result of `serde_json::from_str` (`none` = parse failure,
mapped to `JsonParsingError`).  `hash.get("code").and_then(as_str)` picks
a string fault code: absent → `Verified` with `json!(hash.get("target"))`
as payload; `"NOT_FOUND"` → `Unverified` with the whole object;
any other string → `Unavailable` with the whole object.
`v.as_object().unwrap()` panics — modelled as the outer `none` — when the
body is valid JSON but not an object. -/
def parse_response (body : Option Json) :
    Option (Except VerificationError SimpleVerification) :=
  match body with
  | none => some (.error .JsonParsingError)
  | some v =>
    match v with
    | .obj hash =>
      match (hash.get "code").bind Json.as_str with
      | none => some (.ok ⟨.Verified, Json.ofOption (hash.get "target")⟩)
      | some fault_code =>
        if fault_code = "NOT_FOUND" then some (.ok ⟨.Unverified, .obj hash⟩)
        else some (.ok ⟨.Unavailable, .obj hash⟩)
    | _ => none

end Hmrc

/-! ## BRREG (`src/no_vat/brreg.rs` and `src/no_vat/translator.rs`) -/

/-- Modelled from the spec: the static key-rename table `TRANSLATIONS` is
loaded from `translations.toml`, which is not under `src/` (the spec
excludes it as an external collaborator, "a static key-rename lookup").
The entries are pinned by the tests of `src/no_vat/brreg.rs`. -/
def TRANSLATIONS : List (String × String) := [
  ("organisasjonsnummer", "organizationNumber"),
  ("navn", "name"),
  ("registrertIMvaregisteret", "registeredInVatRegister"),
  ("konkurs", "bankruptcy"),
  ("underAvvikling", "underLiquidation"),
  ("underTvangsavviklingEllerTvangsopplosning", "underForcedLiquidation"),
  ("forretningsadresse", "businessAddress"),
  ("land", "country"),
  ("landkode", "countryCode"),
  ("postnummer", "postalCode"),
  ("poststed", "city"),
  ("adresse", "street"),
  ("kommune", "municipality"),
  ("kommunenummer", "municipalityCode")]

/-- `translations.get(key).unwrap_or(key)`. -/
def trKey (k : String) : String := (TRANSLATIONS.lookup k).getD k

mutual
/-- `translate_keys` (`src/no_vat/translator.rs`): rename object keys
through the table, depth-first over nested objects and arrays; scalars are
unchanged. -/
def translate_keys : Json → Json
  | .obj fields => .obj (translateFields fields)
  | .arr xs => .arr (translateList xs)
  | x => x
def translateList : JsonList → JsonList
  | .nil => .nil
  | .cons h t => .cons (translate_keys h) (translateList t)
def translateFields : JsonObj → JsonObj
  | .nil => .nil
  | .cons k v t => .cons (trKey k) (translate_keys v) (translateFields t)
end

namespace BrReg

/-- The qualification table `REQUIREMENTS_TO_BE_VALID`
(`src/no_vat/brreg.rs`, lines 28–37), in insertion order.  The source
iterates the `HashMap` in arbitrary order; `qualify`'s result does not
depend on the order, and its panic (below) is exercised only through
order-independent inputs. -/
def REQUIREMENTS_TO_BE_VALID : List (String × Bool) := [
  ("registeredInVatRegister", true),
  ("bankruptcy", false),
  ("underLiquidation", false),
  ("underForcedLiquidation", false)]

/-- The loop of `BrReg::qualify`: `true` if every requirement so far holds,
`false` on the first absent or mismatched key.
`hash.get(key).unwrap().as_bool().unwrap()` panics — modelled as `none` —
when a required key is present with a non-boolean value. -/
def qualifyGo (hash : JsonObj) : List (String × Bool) → Option Bool
  | [] => some true
  | (key, value) :: rest =>
    match hash.get key with
    | none => some false
    | some j =>
      match j.as_bool with
      | none => none
      | some b => if b = value then qualifyGo hash rest else some false

/-- `BrReg::qualify` (`src/no_vat/brreg.rs`, lines 42–58). -/
def qualify (hash : JsonObj) : Option VerificationStatus :=
  (qualifyGo hash REQUIREMENTS_TO_BE_VALID).map
    (fun valid => if valid then .Verified else .Unverified)

/-- `BrReg::parse_response` (`src/no_vat/brreg.rs`, lines 78–109), by HTTP
status code.  The body is given as the result of `serde_json::from_str`
(`none` = parse failure).  `v.as_object().unwrap()` panics — modelled as
the outer `none` — when the (translated) body is not an object. -/
def parse_response (status : Nat) (body : Option Json) :
    Option (Except VerificationError Verification) :=
  if status = 404 ∨ status = 410 then
    some (.ok ⟨.Unverified, .obj .nil⟩)
  else if status = 200 ∨ status = 500 then
    match body with
    | none => some (.error .JsonParsingError)
    | some v =>
      match translate_keys v with
      | .obj hash =>
        if status = 500 then
          some (.ok ⟨.Unavailable .ServiceUnavailable, .obj hash⟩)
        else
          match qualify hash with
          | none => none
          | some st => some (.ok ⟨st, .obj hash⟩)
      | _ => none
  else
    some (.error (.UnexpectedStatusCode status))

end BrReg


/-! ## XML documents (`roxmltree`, as used by BFS and VIES)

An XML document is modelled as its root element.  `descendants` is the
document-order (pre-order) listing of all nodes, as `roxmltree`'s
`Document::descendants` (whose extra document-root node has an empty tag
name and no text, so it never contributes to the flattened maps).
`tag_name().name()` of a text node is empty; `node.text()` of an element
is the content of its first child when that child is a text node. -/

mutual
inductive XmlNode where
  | elem (name : String) (children : XmlForest) : XmlNode
  | text (s : String) : XmlNode
deriving DecidableEq
inductive XmlForest where
  | nil : XmlForest
  | cons (hd : XmlNode) (tl : XmlForest) : XmlForest
deriving DecidableEq
end

mutual
def XmlNode.descendants : XmlNode → List XmlNode
  | .elem n cs => .elem n cs :: XmlForest.descendantsF cs
  | .text s => [.text s]
def XmlForest.descendantsF : XmlForest → List XmlNode
  | .nil => []
  | .cons h t => h.descendants ++ XmlForest.descendantsF t
end

/-- `node.tag_name().name()`. -/
def XmlNode.tagName : XmlNode → String
  | .elem n _ => n
  | .text _ => ""

/-- `str::trim`: remove leading and trailing whitespace.  (Defined here
because Lean's `String.trim` is not kernel-computable.) -/
def rustTrim (s : String) : String :=
  String.mk (((s.data.dropWhile Char.isWhitespace).reverse.dropWhile
    Char.isWhitespace).reverse)

/-- `node.text()`. -/
def XmlNode.nodeText : XmlNode → Option String
  | .elem _ (.cons (.text s) _) => some s
  | .elem _ _ => none
  | .text s => some s

/-- The flattened tag→text maps of BFS and VIES:
`HashMap<String, Option<String>>` with unique keys, modelled as an
association list. -/
def Hash := List (String × Option String)

deriving instance DecidableEq for Hash

/-- `HashMap::insert`: replace the binding of `k` if present, else add it. -/
def hinsert (m : Hash) (k : String) (v : Option String) : Hash :=
  match m with
  | [] => [(k, v)]
  | (k', v') :: t => if k' = k then (k, v) :: t else (k', v') :: hinsert t k v

/-- `m.get(k)` on the flattened map. -/
def Hash.get (m : Hash) (k : String) : Option (Option String) := List.lookup k m

/-- `json!(hash)`: serialize the flattened map (a `None` value serializes
to JSON `null`). -/
def Json.ofHash : Hash → JsonObj
  | [] => .nil
  | (k, none) :: t => .cons k .null (Json.ofHash t)
  | (k, some s) :: t => .cons k (.str s) (Json.ofHash t)

/-! ## BFS (`src/ch_vat/bfs.rs`) -/

namespace BFS

def tags_to_exclude : List String :=
  ["Body", "Envelope", "Fault", "businessFault", "detail", "ValidateVatNumberResponse"]

/-- The per-node step of the `BFS::xml_to_hash` loop: skip nodes whose tag
name trims to empty or is excluded, otherwise insert the node's text (if
any) under its tag name. -/
def hashStep (m : Hash) (node : XmlNode) : Hash :=
  if rustTrim node.tagName = "" ∨ tags_to_exclude.contains node.tagName then m
  else match node.nodeText with
    | some text => hinsert m node.tagName (some text)
    | none => m

/-- `BFS::xml_to_hash` (`src/ch_vat/bfs.rs`, lines 47–70). -/
def xml_to_hash (doc : XmlNode) : Hash :=
  doc.descendants.foldl hashStep []

/-- The `None`-fault arm of `BFS::parse_response`: the match on
`hash.get("ValidateVatNumberResult").and_then(as_deref)` (given as the
argument). -/
def resultDecision (hash : Hash) :
    Option String → Except VerificationError SimpleVerification
  | some result =>
    if result = "true" then .ok ⟨.Verified, .obj (Json.ofHash hash)⟩
    else if result = "false" then .ok ⟨.Unverified, .obj (Json.ofHash hash)⟩
    else .error (.UnexpectedResponse "ValidateVatNumberResult should be 'true' or 'false'")
  | none =>
    .error (.UnexpectedResponse "ValidateVatNumberResult should be 'true' or 'false'")

/-- The match of `BFS::parse_response` on
`hash.get("faultstring").and_then(as_deref)` (given as the argument). -/
def faultDecision (hash : Hash) :
    Option String → Except VerificationError SimpleVerification
  | some fault =>
    if fault = "Data_validation_failed" then
      .ok ⟨.Unverified, .obj (Json.ofHash hash)⟩
    else if fault = "Request_limit_exceeded" then
      .ok ⟨.Unavailable, .obj (Json.ofHash hash)⟩
    else
      .error (.UnexpectedResponse ("Unexpected faultstring: " ++ fault))
  | none => resultDecision hash ((hash.get "ValidateVatNumberResult").bind id)

/-- `BFS::parse_response` (`src/ch_vat/bfs.rs`, lines 93–118).  The body
is given as the result of `roxmltree::Document::parse` (`none` = XML parse
failure, mapped to `XmlParsingError`). -/
def parse_response (body : Option XmlNode) :
    Except VerificationError SimpleVerification :=
  match body with
  | none => .error .XmlParsingError
  | some doc =>
    let hash := xml_to_hash doc
    faultDecision hash ((hash.get "faultstring").bind id)

end BFS

/-! ## VIES (`src/eu_vat/vies.rs`) -/

/-- The fault-code→reason table `FAULT_MAP` (`src/eu_vat/vies.rs`,
lines 29–44). -/
def FAULT_MAP : List (String × UnavailableReason) := [
  ("SERVICE_UNAVAILABLE", .ServiceUnavailable),
  ("MS_UNAVAILABLE", .ServiceUnavailable),
  ("TIMEOUT", .Timeout),
  ("VAT_BLOCKED", .Block),
  ("IP_BLOCKED", .Block),
  ("GLOBAL_MAX_CONCURRENT_REQ", .RateLimit),
  ("GLOBAL_MAX_CONCURRENT_REQ_TIME", .RateLimit),
  ("MS_MAX_CONCURRENT_REQ", .RateLimit),
  ("MS_MAX_CONCURRENT_REQ_TIME", .RateLimit)]

namespace Vies

def tags_to_exclude : List String := ["Body", "Envelope", "Fault"]

/-- The per-node step of the `Vies::xml_to_hash` loop: as for BFS but with
the VIES convention that the literal text `"---"` denotes an absent field
and is stored as `None`. -/
def hashStep (m : Hash) (node : XmlNode) : Hash :=
  if rustTrim node.tagName = "" ∨ tags_to_exclude.contains node.tagName then m
  else match node.nodeText with
    | some text =>
      if text = "---" then hinsert m node.tagName none
      else hinsert m node.tagName (some text)
    | none => m

/-- `Vies::xml_to_hash` (`src/eu_vat/vies.rs`, lines 50–71). -/
def xml_to_hash (doc : XmlNode) : Hash :=
  doc.descendants.foldl hashStep []

/-- The entry (tag, stored value) a node contributes to the map, if any:
`none` for skipped nodes (empty/excluded tag, or no text), with the VIES
`"---"` decoding applied. -/
def entryOf (node : XmlNode) : Option (String × Option String) :=
  if rustTrim node.tagName = "" ∨ tags_to_exclude.contains node.tagName then none
  else (node.nodeText).map (fun text =>
    (node.tagName, if text = "---" then none else some text))

/-- The (tag, stored value) pairs the `xml_to_hash` loop inserts, in
document order. -/
def retained (doc : XmlNode) : List (String × Option String) :=
  doc.descendants.filterMap entryOf

/-- The `None`-fault arm of `Vies::parse_response`: the match on
`hash.get("valid").and_then(as_deref)` (given as the argument). -/
def validityDecision (hash : Hash) :
    Option String → Except VerificationError Verification
  | some validity =>
    if validity = "true" then .ok ⟨.Verified, .obj (Json.ofHash hash)⟩
    else if validity = "false" then .ok ⟨.Unverified, .obj (Json.ofHash hash)⟩
    else .error (.UnexpectedResponse "Invalid value for valid field in VIES response")
  | none => .error (.UnexpectedResponse "Missing valid field in VIES response")

/-- The match of `Vies::parse_response` on
`hash.get("faultstring").and_then(as_deref)` (given as the argument), with
the `FAULT_MAP` lookup result also explicit. -/
def faultLookupDecision (hash : Hash) (fault : String) :
    Option UnavailableReason → Except VerificationError Verification
  | some reason => .ok ⟨.Unavailable reason, .obj (Json.ofHash hash)⟩
  | none => .error (.UnexpectedResponse ("Unknown fault code: " ++ fault))

def faultDecision (hash : Hash) :
    Option String → Except VerificationError Verification
  | some fault => faultLookupDecision hash fault (FAULT_MAP.lookup fault)
  | none => validityDecision hash ((hash.get "valid").bind id)

/-- `Vies::parse_response` (`src/eu_vat/vies.rs`, lines 95–139).  The body
is given as the result of `roxmltree::Document::parse` (`none` = XML parse
failure, mapped to `XmlParsingError`). -/
def parse_response (body : Option XmlNode) :
    Except VerificationError Verification :=
  match body with
  | none => .error .XmlParsingError
  | some doc =>
    let hash := xml_to_hash doc
    faultDecision hash ((hash.get "faultstring").bind id)

end Vies


/-! ## Theorems -/

/-- **C3.** The country-code normalization `EuVat::country_code_from` is
total and idempotent: it maps `"XI"` to `"GB"`, `"EL"` to `"GR"`, and every
other code to itself, so applying it twice equals applying it once. -/
theorem euvat_country_code_from_total_idempotent :
    EuVat.country_code_from "XI" = "GB" ∧
    EuVat.country_code_from "EL" = "GR" ∧
    (∀ c : String, c ≠ "XI" → c ≠ "EL" → EuVat.country_code_from c = c) ∧
    (∀ c : String,
      EuVat.country_code_from (EuVat.country_code_from c) =
        EuVat.country_code_from c) := by
  refine ⟨rfl, rfl, ?_, ?_⟩
  · intro c h1 h2
    simp [EuVat.country_code_from, h1, h2]
  · intro c
    by_cases h1 : c = "XI"
    · subst h1; rfl
    · by_cases h2 : c = "EL"
      · subst h2; rfl
      · simp [EuVat.country_code_from, h1, h2]

/-- Witness for C3: the all-other-codes clause applied at `"SE"`. -/
theorem euvat_country_code_from_witness :
    EuVat.country_code_from "SE" = "SE" :=
  euvat_country_code_from_total_idempotent.2.2.1 "SE" (by decide) (by decide)

/-- **C10.** On inputs shorter than 2 bytes, both public entry points hit
the unguarded slice `&value[0..2]` and panic (modelled as `none`) instead
of returning a `ValidationError`. -/
theorem short_input_panics :
    ∀ s : String, s.length < 2 →
      TaxId.validate_syntax s = none ∧ TaxId.new s = none := by
  intro s h
  have h2 : ¬ 2 ≤ s.length := by omega
  exact ⟨by simp [ TaxId.validate_syntax, h2], by simp [TaxId.new, h2]⟩

/-- Witness for C10 at the 1-character input `"A"`. -/
theorem short_input_panics_witness :
    TaxId.validate_syntax "A" = none ∧ TaxId.new "A" = none :=
  short_input_panics "A" (by decide)

/-- **C9.** `Hmrc::parse_response` on a JSON-object body: no `code` field →
`Verified` with the `target` sub-object (only) as payload; `code =
"NOT_FOUND"` → `Unverified` with the whole object; any other string `code`
→ `Unavailable` with the whole object; a body that is not valid JSON →
`JsonParsingError`. -/
theorem hmrc_parse_response_cases :
    ∀ hash : JsonObj,
      (hash.get "code" = none →
        Hmrc.parse_response (some (.obj hash)) =
          some (.ok ⟨.Verified, Json.ofOption (hash.get "target")⟩)) ∧
      (∀ target, hash.get "code" = none → hash.get "target" = some target →
        Hmrc.parse_response (some (.obj hash)) =
          some (.ok ⟨.Verified, target⟩)) ∧
      (hash.get "code" = some (.str "NOT_FOUND") →
        Hmrc.parse_response (some (.obj hash)) =
          some (.ok ⟨.Unverified, .obj hash⟩)) ∧
      (∀ c, hash.get "code" = some (.str c) → c ≠ "NOT_FOUND" →
        Hmrc.parse_response (some (.obj hash)) =
          some (.ok ⟨.Unavailable, .obj hash⟩)) ∧
      Hmrc.parse_response none = some (.error .JsonParsingError) := by
  intro hash
  refine ⟨?_, ?_, ?_, ?_, rfl⟩
  · intro hc; simp [Hmrc.parse_response, hc]
  · intro target hc ht; simp [Hmrc.parse_response, hc, ht, Json.ofOption]
  · intro hc; simp [Hmrc.parse_response, hc, Json.as_str]
  · intro c hc hne; simp [Hmrc.parse_response, hc, Json.as_str, hne]

/-- Witness for C9: a `code` of `"SERVER_ERROR"` yields `Unavailable` with
the whole object as payload. -/
theorem hmrc_parse_response_witness :
    Hmrc.parse_response (some (.obj (.cons "code" (.str "SERVER_ERROR") .nil))) =
      some (.ok ⟨.Unavailable, .obj (.cons "code" (.str "SERVER_ERROR") .nil)⟩) :=
  (hmrc_parse_response_cases (.cons "code" (.str "SERVER_ERROR") .nil)).2.2.2.1
    "SERVER_ERROR" (by decide) (by decide)

/-- **C7.** `BrReg::parse_response` by HTTP status: 404 and 410 yield
`Unverified` with an empty JSON-object payload; 500 with a JSON-object
body yields `Unavailable(ServiceUnavailable)` with the key-translated body
as payload; 200 with a JSON-object body yields the outcome of the
qualification rule with the key-translated body as payload; every other
status yields `UnexpectedStatusCode` carrying that status. -/
theorem brreg_parse_response_cases :
    ∀ (status : Nat) (body : Option Json) (hash : JsonObj),
      BrReg.parse_response 404 body = some (.ok ⟨.Unverified, .obj .nil⟩) ∧
      BrReg.parse_response 410 body = some (.ok ⟨.Unverified, .obj .nil⟩) ∧
      BrReg.parse_response 500 (some (.obj hash)) =
        some (.ok ⟨.Unavailable .ServiceUnavailable, .obj (translateFields hash)⟩) ∧
      BrReg.parse_response 200 (some (.obj hash)) =
        (BrReg.qualify (translateFields hash)).map
          (fun st => .ok ⟨st, .obj (translateFields hash)⟩) ∧
      (status ≠ 200 → status ≠ 404 → status ≠ 410 → status ≠ 500 →
        BrReg.parse_response status body =
          some (.error (.UnexpectedStatusCode status))) := by
  intro status body hash
  refine ⟨by simp [BrReg.parse_response], by simp [BrReg.parse_response], ?_, ?_, ?_⟩
  · simp [BrReg.parse_response, translate_keys]
  · show BrReg.parse_response 200 (some (.obj hash)) = _
    simp only [BrReg.parse_response, translate_keys]
    cases hq : BrReg.qualify (translateFields hash) with
    | none => simp [hq]
    | some st => simp [hq]
  · intro h200 h404 h410 h500
    simp [BrReg.parse_response, h200, h404, h410, h500]

/-- Witness for C7: status 204 yields `UnexpectedStatusCode(204)`. -/
theorem brreg_parse_response_witness :
    BrReg.parse_response 204 none = some (.error (.UnexpectedStatusCode 204)) :=
  (brreg_parse_response_cases 204 none .nil).2.2.2.2
    (by decide) (by decide) (by decide) (by decide)

/-- An association-list lookup misses every key that is not in the list. -/
theorem lookup_eq_none_of_not_mem_keys {β : Type} (l : List (String × β))
    (k : String) (h : k ∉ l.map Prod.fst) : l.lookup k = none := by
  induction l with
  | nil => rfl
  | cons p t ih =>
    simp only [List.map_cons, List.mem_cons] at h
    push_neg at h
    have hk : (k == p.1) = false := by
      simp [h.1]
    simp [List.lookup, hk, ih h.2]

/-- **C4.** `BFS::parse_response` on an XML body, through the flattened
tag→text map: `faultstring = "Data_validation_failed"` → `Unverified`;
`faultstring = "Request_limit_exceeded"` → `Unavailable`; any other fault
string → `UnexpectedResponse`; with no fault string,
`ValidateVatNumberResult = "true"`/`"false"` → `Verified`/`Unverified` and
any other or absent value → `UnexpectedResponse`. -/
theorem bfs_parse_response_cases :
    ∀ doc : XmlNode,
      ((Hash.get (BFS.xml_to_hash doc) "faultstring").bind id =
          some "Data_validation_failed" →
        BFS.parse_response (some doc) =
          .ok ⟨.Unverified, .obj (Json.ofHash (BFS.xml_to_hash doc))⟩) ∧
      ((Hash.get (BFS.xml_to_hash doc) "faultstring").bind id =
          some "Request_limit_exceeded" →
        BFS.parse_response (some doc) =
          .ok ⟨.Unavailable, .obj (Json.ofHash (BFS.xml_to_hash doc))⟩) ∧
      (∀ fault, (Hash.get (BFS.xml_to_hash doc) "faultstring").bind id = some fault →
        fault ≠ "Data_validation_failed" → fault ≠ "Request_limit_exceeded" →
        BFS.parse_response (some doc) =
          .error (.UnexpectedResponse ("Unexpected faultstring: " ++ fault))) ∧
      ((Hash.get (BFS.xml_to_hash doc) "faultstring").bind id = none →
        (Hash.get (BFS.xml_to_hash doc) "ValidateVatNumberResult").bind id =
          some "true" →
        BFS.parse_response (some doc) =
          .ok ⟨.Verified, .obj (Json.ofHash (BFS.xml_to_hash doc))⟩) ∧
      ((Hash.get (BFS.xml_to_hash doc) "faultstring").bind id = none →
        (Hash.get (BFS.xml_to_hash doc) "ValidateVatNumberResult").bind id =
          some "false" →
        BFS.parse_response (some doc) =
          .ok ⟨.Unverified, .obj (Json.ofHash (BFS.xml_to_hash doc))⟩) ∧
      ((Hash.get (BFS.xml_to_hash doc) "faultstring").bind id = none →
        ∀ result : Option String,
        (Hash.get (BFS.xml_to_hash doc) "ValidateVatNumberResult").bind id = result →
        result ≠ some "true" → result ≠ some "false" →
        BFS.parse_response (some doc) =
          .error (.UnexpectedResponse
            "ValidateVatNumberResult should be 'true' or 'false'")) := by
  intro doc
  refine ⟨?_, ?_, ?_, ?_, ?_, ?_⟩
  · intro hfs
    simp only [BFS.parse_response]; rw [hfs]; simp [BFS.faultDecision]
  · intro hfs
    simp only [BFS.parse_response]; rw [hfs]; simp [BFS.faultDecision]
  · intro fault hfs h1 h2
    simp only [BFS.parse_response]; rw [hfs]; simp [BFS.faultDecision, h1, h2]
  · intro hfs hres
    simp only [BFS.parse_response]; rw [hfs]
    simp only [BFS.faultDecision]; rw [hres]; simp [BFS.resultDecision]
  · intro hfs hres
    simp only [BFS.parse_response]; rw [hfs]
    simp only [BFS.faultDecision]; rw [hres]; simp [BFS.resultDecision]
  · intro hfs result hres h1 h2
    simp only [BFS.parse_response]; rw [hfs]
    simp only [BFS.faultDecision]; rw [hres]
    cases result with
    | none => simp [BFS.resultDecision]
    | some r =>
      have hr1 : r ≠ "true" := by intro h; exact h1 (by rw [h])
      have hr2 : r ≠ "false" := by intro h; exact h2 (by rw [h])
      simp [BFS.resultDecision, hr1, hr2]

/-- Witness for C4: a SOAP fault with `Data_validation_failed` parses to
`Unverified`. -/
theorem bfs_parse_response_witness :
    BFS.parse_response (some (.elem "Envelope" (.cons (.elem "Body" (.cons
      (.elem "Fault" (.cons
        (.elem "faultstring" (.cons (.text "Data_validation_failed") .nil))
        .nil)) .nil)) .nil))) =
    .ok ⟨.Unverified, .obj (Json.ofHash (BFS.xml_to_hash
      (.elem "Envelope" (.cons (.elem "Body" (.cons
      (.elem "Fault" (.cons
        (.elem "faultstring" (.cons (.text "Data_validation_failed") .nil))
        .nil)) .nil)) .nil))))⟩ :=
  (bfs_parse_response_cases _).1 (by decide)

/-- **C5.** `Vies::parse_response` on an XML body whose flattened map has a
fault string: the nine table entries map to their `Unavailable` reasons;
any fault string outside the table is an `UnexpectedResponse` error, never
a default `Unavailable`.  With no fault string, `valid = "true"`/`"false"`
→ `Verified`/`Unverified`, and a missing or other value is an
`UnexpectedResponse` error with distinct messages for the two cases. -/
theorem vies_parse_response_cases :
    ∀ doc : XmlNode,
      (∀ fault reason,
        (Hash.get (Vies.xml_to_hash doc) "faultstring").bind id = some fault →
        FAULT_MAP.lookup fault = some reason →
        Vies.parse_response (some doc) =
          .ok ⟨.Unavailable reason, .obj (Json.ofHash (Vies.xml_to_hash doc))⟩) ∧
      ((Hash.get (Vies.xml_to_hash doc) "faultstring").bind id =
          some "SERVICE_UNAVAILABLE" →
        Vies.parse_response (some doc) =
          .ok ⟨.Unavailable .ServiceUnavailable,
            .obj (Json.ofHash (Vies.xml_to_hash doc))⟩) ∧
      ((Hash.get (Vies.xml_to_hash doc) "faultstring").bind id =
          some "MS_UNAVAILABLE" →
        Vies.parse_response (some doc) =
          .ok ⟨.Unavailable .ServiceUnavailable,
            .obj (Json.ofHash (Vies.xml_to_hash doc))⟩) ∧
      ((Hash.get (Vies.xml_to_hash doc) "faultstring").bind id = some "TIMEOUT" →
        Vies.parse_response (some doc) =
          .ok ⟨.Unavailable .Timeout, .obj (Json.ofHash (Vies.xml_to_hash doc))⟩) ∧
      ((Hash.get (Vies.xml_to_hash doc) "faultstring").bind id = some "VAT_BLOCKED" →
        Vies.parse_response (some doc) =
          .ok ⟨.Unavailable .Block, .obj (Json.ofHash (Vies.xml_to_hash doc))⟩) ∧
      ((Hash.get (Vies.xml_to_hash doc) "faultstring").bind id = some "IP_BLOCKED" →
        Vies.parse_response (some doc) =
          .ok ⟨.Unavailable .Block, .obj (Json.ofHash (Vies.xml_to_hash doc))⟩) ∧
      ((Hash.get (Vies.xml_to_hash doc) "faultstring").bind id =
          some "GLOBAL_MAX_CONCURRENT_REQ" →
        Vies.parse_response (some doc) =
          .ok ⟨.Unavailable .RateLimit, .obj (Json.ofHash (Vies.xml_to_hash doc))⟩) ∧
      ((Hash.get (Vies.xml_to_hash doc) "faultstring").bind id =
          some "GLOBAL_MAX_CONCURRENT_REQ_TIME" →
        Vies.parse_response (some doc) =
          .ok ⟨.Unavailable .RateLimit, .obj (Json.ofHash (Vies.xml_to_hash doc))⟩) ∧
      ((Hash.get (Vies.xml_to_hash doc) "faultstring").bind id =
          some "MS_MAX_CONCURRENT_REQ" →
        Vies.parse_response (some doc) =
          .ok ⟨.Unavailable .RateLimit, .obj (Json.ofHash (Vies.xml_to_hash doc))⟩) ∧
      ((Hash.get (Vies.xml_to_hash doc) "faultstring").bind id =
          some "MS_MAX_CONCURRENT_REQ_TIME" →
        Vies.parse_response (some doc) =
          .ok ⟨.Unavailable .RateLimit, .obj (Json.ofHash (Vies.xml_to_hash doc))⟩) ∧
      (∀ fault, (Hash.get (Vies.xml_to_hash doc) "faultstring").bind id = some fault →
        fault ∉ FAULT_MAP.map Prod.fst →
        Vies.parse_response (some doc) =
          .error (.UnexpectedResponse ("Unknown fault code: " ++ fault))) ∧
      ((Hash.get (Vies.xml_to_hash doc) "faultstring").bind id = none →
        (Hash.get (Vies.xml_to_hash doc) "valid").bind id = some "true" →
        Vies.parse_response (some doc) =
          .ok ⟨.Verified, .obj (Json.ofHash (Vies.xml_to_hash doc))⟩) ∧
      ((Hash.get (Vies.xml_to_hash doc) "faultstring").bind id = none →
        (Hash.get (Vies.xml_to_hash doc) "valid").bind id = some "false" →
        Vies.parse_response (some doc) =
          .ok ⟨.Unverified, .obj (Json.ofHash (Vies.xml_to_hash doc))⟩) ∧
      ((Hash.get (Vies.xml_to_hash doc) "faultstring").bind id = none →
        (Hash.get (Vies.xml_to_hash doc) "valid").bind id = none →
        Vies.parse_response (some doc) =
          .error (.UnexpectedResponse "Missing valid field in VIES response")) ∧
      ((Hash.get (Vies.xml_to_hash doc) "faultstring").bind id = none →
        ∀ v, (Hash.get (Vies.xml_to_hash doc) "valid").bind id = some v →
        v ≠ "true" → v ≠ "false" →
        Vies.parse_response (some doc) =
          .error (.UnexpectedResponse
            "Invalid value for valid field in VIES response")) := by
  intro doc
  have base : ∀ fault reason,
      (Hash.get (Vies.xml_to_hash doc) "faultstring").bind id = some fault →
      FAULT_MAP.lookup fault = some reason →
      Vies.parse_response (some doc) =
        .ok ⟨.Unavailable reason, .obj (Json.ofHash (Vies.xml_to_hash doc))⟩ := by
    intro fault reason hfs hlk
    simp only [Vies.parse_response]; rw [hfs]
    simp only [Vies.faultDecision]; rw [hlk]
    simp [Vies.faultLookupDecision]
  refine ⟨base, ?_, ?_, ?_, ?_, ?_, ?_, ?_, ?_, ?_, ?_, ?_, ?_, ?_, ?_⟩
  · intro hfs; exact base _ _ hfs (by decide)
  · intro hfs; exact base _ _ hfs (by decide)
  · intro hfs; exact base _ _ hfs (by decide)
  · intro hfs; exact base _ _ hfs (by decide)
  · intro hfs; exact base _ _ hfs (by decide)
  · intro hfs; exact base _ _ hfs (by decide)
  · intro hfs; exact base _ _ hfs (by decide)
  · intro hfs; exact base _ _ hfs (by decide)
  · intro hfs; exact base _ _ hfs (by decide)
  · intro fault hfs hmem
    have hlk : FAULT_MAP.lookup fault = none :=
      lookup_eq_none_of_not_mem_keys _ _ hmem
    simp only [Vies.parse_response]; rw [hfs]
    simp only [Vies.faultDecision]; rw [hlk]
    simp [Vies.faultLookupDecision]
  · intro hfs hv
    simp only [Vies.parse_response]; rw [hfs]
    simp only [Vies.faultDecision]; rw [hv]; simp [Vies.validityDecision]
  · intro hfs hv
    simp only [Vies.parse_response]; rw [hfs]
    simp only [Vies.faultDecision]; rw [hv]; simp [Vies.validityDecision]
  · intro hfs hv
    simp only [Vies.parse_response]; rw [hfs]
    simp only [Vies.faultDecision]; rw [hv]; simp [Vies.validityDecision]
  · intro hfs v hv h1 h2
    simp only [Vies.parse_response]; rw [hfs]
    simp only [Vies.faultDecision]; rw [hv]; simp [Vies.validityDecision, h1, h2]

/-- **C1.** `TaxId::validate_syntax` on an input of at least 2 characters:
if no pattern is registered in `SYNTAX` for the 2-character prefix, it
fails with `UnsupportedCountryCode` carrying that prefix (never
`InvalidSyntax`); if a pattern is registered but does not match the full
string, it fails with `InvalidSyntax`; and it succeeds exactly when the
registered pattern matches the full string. -/
theorem validate_syntax_contract :
    ∀ value : String, 2 ≤ value.length →
      (SYNTAX.lookup (value.take 2) = none →
        TaxId.validate_syntax value =
          some (.error (.UnsupportedCountryCode (value.take 2)))) ∧
      (∀ pat : Rx, SYNTAX.lookup (value.take 2) = some pat →
        pat.rmatch value = false →
        TaxId.validate_syntax value = some (.error .InvalidSyntax)) ∧
      ( TaxId.validate_syntax value = some (.ok ()) ↔
        ∃ pat : Rx, SYNTAX.lookup (value.take 2) = some pat ∧
          pat.rmatch value = true) := by
  intro value h
  have hv : TaxId.validate_syntax value =
      some (match SYNTAX.lookup (value.take 2) with
        | none => .error (.UnsupportedCountryCode (value.take 2))
        | some pat =>
          if pat.rmatch value then .ok () else .error .InvalidSyntax) := by
    simp [ TaxId.validate_syntax, h]
  refine ⟨?_, ?_, ?_⟩
  · intro hlk; rw [hv, hlk]
  · intro pat hlk hm; rw [hv, hlk]; simp [hm]
  · rw [hv]
    cases hlk : SYNTAX.lookup (value.take 2) with
    | none => simp
    | some pat =>
      by_cases hm : pat.rmatch value
      · simp [hm]
      · simp [hm]

/-- Witness for C1: a valid Swedish number passes; an unregistered prefix
fails with `UnsupportedCountryCode("XX")`; a registered prefix with a
non-matching string fails with `InvalidSyntax`. -/
theorem validate_syntax_contract_witness :
    TaxId.validate_syntax "SE123456789101" = some (.ok ()) ∧
    TaxId.validate_syntax "XX123456789" =
      some (.error (.UnsupportedCountryCode "XX")) ∧
    TaxId.validate_syntax "SE12" = some (.error .InvalidSyntax) :=
  ⟨(validate_syntax_contract "SE123456789101" (by decide)).2.2.mpr
      ⟨EuVatPatterns.sePat, rfl, by decide⟩,
    (validate_syntax_contract "XX123456789" (by decide)).1 rfl,
    (validate_syntax_contract "SE12" (by decide)).2.1 EuVatPatterns.sePat rfl
      (by decide)⟩

/-- **C2.** `TaxId::new` on an input of at least 2 characters selects the
variant by the 2-character prefix (`GB`/`CH`/`NO` literally, EU membership
otherwise, else `UnsupportedCountryCode`); a successfully built `TaxId`
carries the full input as `value`, the prefix as `tax_country_code`, the
remainder as `local_value`, and the chosen variant's normalization of the
prefix as `country_code`; and `"XI123456789"` yields the EU variant with
`country_code = "GB"` and `local_value = "123456789"`. -/
theorem tax_id_new_dispatch :
    ∀ value : String, 2 ≤ value.length →
      (value.take 2 ≠ "GB" → value.take 2 ≠ "CH" → value.take 2 ≠ "NO" →
        COUNTRIES.contains (value.take 2) = false →
        TaxId.new value =
          some (.error (.UnsupportedCountryCode (value.take 2)))) ∧
      (∀ t : TaxId, TaxId.new value = some (.ok t) →
        t.value = value ∧
        t.tax_country_code = value.take 2 ∧
        t.local_value = value.drop 2 ∧
        t.country_code =
          t.id_type.country_code_from_tax_country (value.take 2) ∧
        (value.take 2 = "GB" → t.id_type = .gbVat) ∧
        (value.take 2 = "CH" → t.id_type = .chVat) ∧
        (value.take 2 = "NO" → t.id_type = .noVat) ∧
        (COUNTRIES.contains (value.take 2) = true → t.id_type = .euVat)) ∧
      TaxId.new "XI123456789" =
        some (.ok ⟨"XI123456789", "GB", "XI", "123456789", .euVat⟩) := by
  intro value h
  refine ⟨?_, ?_, by decide⟩
  · intro hne1 hne2 hne3 hnc
    have hnmem : value.take 2 ∉ COUNTRIES := by simpa using hnc
    have hd : dispatch (value.take 2) = none := by
      simp [dispatch, hne1, hne2, hne3, hnmem]
    simp only [TaxId.new, if_pos h]
    rw [hd]
    simp [afterDispatch]
  · intro t ht
    have hnew : afterDispatch value (dispatch (value.take 2)) = some (.ok t) := by
      rw [← ht]; simp [TaxId.new, h]
    cases hdc : dispatch (value.take 2) with
    | none =>
      rw [hdc] at hnew
      simp [afterDispatch] at hnew
    | some v =>
      rw [hdc] at hnew
      simp only [afterDispatch] at hnew
      cases hvs : IdType.validate_syntax v value with
      | none => rw [hvs] at hnew; simp [afterValidate] at hnew
      | some r =>
        rw [hvs] at hnew
        cases r with
        | error e => simp [afterValidate] at hnew
        | ok u =>
          cases u
          simp only [afterValidate, Option.some.injEq, Except.ok.injEq] at hnew
          subst hnew
          refine ⟨rfl, rfl, rfl, rfl, ?_, ?_, ?_, ?_⟩
          · intro hp; rw [hp] at hdc
            rw [show dispatch "GB" = some IdType.gbVat from by decide] at hdc
            injection hdc with h
            exact h.symm
          · intro hp; rw [hp] at hdc
            rw [show dispatch "CH" = some IdType.chVat from by decide] at hdc
            injection hdc with h
            exact h.symm
          · intro hp; rw [hp] at hdc
            rw [show dispatch "NO" = some IdType.noVat from by decide] at hdc
            injection hdc with h
            exact h.symm
          · intro hcon
            have hne1 : value.take 2 ≠ "GB" := by
              intro hp; rw [hp] at hcon; exact absurd hcon (by decide)
            have hne2 : value.take 2 ≠ "CH" := by
              intro hp; rw [hp] at hcon; exact absurd hcon (by decide)
            have hne3 : value.take 2 ≠ "NO" := by
              intro hp; rw [hp] at hcon; exact absurd hcon (by decide)
            have hmem : value.take 2 ∈ COUNTRIES := by simpa using hcon
            rw [show dispatch (value.take 2) = some IdType.euVat from by
              simp [dispatch, hne1, hne2, hne3, hmem]] at hdc
            injection hdc with h
            exact h.symm

/-- Witness for C2: the field clause applied to the successfully built
`TaxId` for `"GB591819014"`. -/
theorem tax_id_new_dispatch_witness :
    (⟨"GB591819014", "GB", "GB", "591819014", .gbVat⟩ : TaxId).value =
        "GB591819014" ∧
      (⟨"GB591819014", "GB", "GB", "591819014", .gbVat⟩ : TaxId).tax_country_code =
        "GB591819014".take 2 ∧
      (⟨"GB591819014", "GB", "GB", "591819014", .gbVat⟩ : TaxId).local_value =
        "GB591819014".drop 2 ∧
      (⟨"GB591819014", "GB", "GB", "591819014", .gbVat⟩ : TaxId).country_code =
        IdType.country_code_from_tax_country
          (⟨"GB591819014", "GB", "GB", "591819014", .gbVat⟩ : TaxId).id_type
          ("GB591819014".take 2) ∧
      ("GB591819014".take 2 = "GB" →
        (⟨"GB591819014", "GB", "GB", "591819014", .gbVat⟩ : TaxId).id_type =
          .gbVat) ∧
      ("GB591819014".take 2 = "CH" →
        (⟨"GB591819014", "GB", "GB", "591819014", .gbVat⟩ : TaxId).id_type =
          .chVat) ∧
      ("GB591819014".take 2 = "NO" →
        (⟨"GB591819014", "GB", "GB", "591819014", .gbVat⟩ : TaxId).id_type =
          .noVat) ∧
      (COUNTRIES.contains ("GB591819014".take 2) = true →
        (⟨"GB591819014", "GB", "GB", "591819014", .gbVat⟩ : TaxId).id_type =
          .euVat) :=
  (tax_id_new_dispatch "GB591819014" (by decide)).2.1
    ⟨"GB591819014", "GB", "GB", "591819014", .gbVat⟩ (by decide)

/-- Witness for C5: a SOAP fault with `MS_MAX_CONCURRENT_REQ` parses to
`Unavailable(RateLimit)`. -/
theorem vies_parse_response_witness :
    Vies.parse_response (some (.elem "Envelope" (.cons (.elem "Body" (.cons
      (.elem "Fault" (.cons
        (.elem "faultstring" (.cons (.text "MS_MAX_CONCURRENT_REQ") .nil))
        .nil)) .nil)) .nil))) =
    .ok ⟨.Unavailable .RateLimit, .obj (Json.ofHash (Vies.xml_to_hash
      (.elem "Envelope" (.cons (.elem "Body" (.cons
      (.elem "Fault" (.cons
        (.elem "faultstring" (.cons (.text "MS_MAX_CONCURRENT_REQ") .nil))
        .nil)) .nil)) .nil))))⟩ :=
  (vies_parse_response_cases _).1 "MS_MAX_CONCURRENT_REQ" .RateLimit
    (by decide) (by decide)

/-- `Value::as_bool` succeeds only on booleans, and then returns the
boolean itself. -/
theorem Json.as_bool_eq_some {j : Json} {b : Bool} (h : j.as_bool = some b) :
    j = .bool b := by
  cases j <;> simp [Json.as_bool] at h
  rw [h]

/-- The loop of `BrReg::qualify` over a requirement list whose present
fields are all booleans: it never panics, and it answers `true` exactly
when every required key is present with the required boolean. -/
theorem qualifyGo_spec :
    ∀ (hash : JsonObj) (l : List (String × Bool)),
      (∀ p ∈ l, ∀ j, hash.get p.1 = some j → (j.as_bool).isSome = true) →
      (∃ b, BrReg.qualifyGo hash l = some b) ∧
      (BrReg.qualifyGo hash l = some true ↔
        ∀ p ∈ l, hash.get p.1 = some (.bool p.2)) := by
  intro hash l
  induction l with
  | nil => intro _; exact ⟨⟨true, rfl⟩, by simp [BrReg.qualifyGo]⟩
  | cons p rest ih =>
    intro hb
    obtain ⟨k, req⟩ := p
    have hbrest : ∀ p ∈ rest, ∀ j, hash.get p.1 = some j →
        (j.as_bool).isSome = true :=
      fun p hp => hb p (List.mem_cons_of_mem _ hp)
    obtain ⟨⟨rb, hrb⟩, hiff⟩ := ih hbrest
    cases hk : hash.get k with
    | none =>
      have hq : BrReg.qualifyGo hash ((k, req) :: rest) = some false := by
        simp [BrReg.qualifyGo, hk]
      refine ⟨⟨false, hq⟩, ?_⟩
      rw [hq]
      constructor
      · intro habs; simp at habs
      · intro hall
        exfalso
        have h2 := hall (k, req) (List.mem_cons_self _ _)
        simp only at h2
        rw [hk] at h2
        exact Option.noConfusion h2
    | some j =>
      have hjs : (j.as_bool).isSome = true :=
        hb (k, req) (List.mem_cons_self _ _) j (by simpa using hk)
      cases hjb : j.as_bool with
      | none => exact absurd (hjb ▸ hjs) (by decide)
      | some b =>
        have hjval : j = .bool b := Json.as_bool_eq_some hjb
        by_cases hbv : b = req
        · subst hbv
          have hq : BrReg.qualifyGo hash ((k, b) :: rest) =
              BrReg.qualifyGo hash rest := by
            simp [BrReg.qualifyGo, hk, hjb]
          refine ⟨⟨rb, by rw [hq]; exact hrb⟩, ?_⟩
          rw [hq, hiff]
          constructor
          · intro hall p hp
            rcases List.mem_cons.mp hp with rfl | hp'
            · simpa [hjval] using hk
            · exact hall p hp'
          · intro hall p hp
            exact hall p (List.mem_cons_of_mem _ hp)
        · have hq : BrReg.qualifyGo hash ((k, req) :: rest) = some false := by
            simp [BrReg.qualifyGo, hk, hjb, hbv]
          refine ⟨⟨false, hq⟩, ?_⟩
          rw [hq]
          constructor
          · intro habs; simp at habs
          · intro hall
            exfalso
            have h2 := hall (k, req) (List.mem_cons_self _ _)
            simp only at h2
            rw [hk, hjval] at h2
            simp at h2
            exact hbv h2

/-- **C8 (amended).** On a translated object whose four required fields,
when present, hold boolean values, `BrReg::qualify` yields `Verified`
exactly when all four hold (`registeredInVatRegister = true` and the three
liquidation/bankruptcy flags `= false`), and `Unverified` whenever a
required field is absent or holds the wrong boolean.  (As stated, the
claim is false: a required field present with a non-boolean value makes
`qualify` panic on `as_bool().unwrap()` instead of yielding
`Unverified` — see the counterexample.) -/
theorem brreg_qualify_amended :
    ∀ hash : JsonObj,
      (∀ p ∈ BrReg.REQUIREMENTS_TO_BE_VALID, ∀ j, hash.get p.1 = some j →
        (j.as_bool).isSome = true) →
      (BrReg.qualify hash = some .Verified ∨
        BrReg.qualify hash = some .Unverified) ∧
      (BrReg.qualify hash = some .Verified ↔
        hash.get "registeredInVatRegister" = some (.bool true) ∧
        hash.get "bankruptcy" = some (.bool false) ∧
        hash.get "underLiquidation" = some (.bool false) ∧
        hash.get "underForcedLiquidation" = some (.bool false)) := by
  intro hash hb
  obtain ⟨⟨b, hbq⟩, hiff⟩ :=
    qualifyGo_spec hash BrReg.REQUIREMENTS_TO_BE_VALID hb
  constructor
  · cases b with
    | true => left; simp [BrReg.qualify, hbq]
    | false => right; simp [BrReg.qualify, hbq]
  · have hq : BrReg.qualify hash = some VerificationStatus.Verified ↔
        BrReg.qualifyGo hash BrReg.REQUIREMENTS_TO_BE_VALID = some true := by
      cases b with
      | true => simp [BrReg.qualify, hbq]
      | false => simp [BrReg.qualify, hbq]
    rw [hq, hiff]
    simp [BrReg.REQUIREMENTS_TO_BE_VALID]

/-- **C8 counterexample.** With `registeredInVatRegister` present but
holding the *string* `"true"` (and the other three required fields
correct booleans), `BrReg::qualify` panics on `as_bool().unwrap()`
(modelled as `none`) — for every iteration order of the requirement
table — rather than yielding `Unverified` as the claim states for a
mismatched field. -/
theorem brreg_qualify_counterexample :
    BrReg.qualify (.cons "registeredInVatRegister" (.str "true")
      (.cons "bankruptcy" (.bool false) (.cons "underLiquidation" (.bool false)
      (.cons "underForcedLiquidation" (.bool false) .nil)))) = none ∧
    BrReg.qualify (.cons "registeredInVatRegister" (.str "true")
      (.cons "bankruptcy" (.bool false) (.cons "underLiquidation" (.bool false)
      (.cons "underForcedLiquidation" (.bool false) .nil)))) ≠
      some .Unverified := by decide

/-- Witness for C8 (amended): a fully qualifying object is `Verified`. -/
theorem brreg_qualify_amended_witness :
    BrReg.qualify (.cons "registeredInVatRegister" (.bool true)
      (.cons "bankruptcy" (.bool false) (.cons "underLiquidation" (.bool false)
      (.cons "underForcedLiquidation" (.bool false) .nil)))) =
      some .Verified :=
  ((brreg_qualify_amended (.cons "registeredInVatRegister" (.bool true)
      (.cons "bankruptcy" (.bool false) (.cons "underLiquidation" (.bool false)
      (.cons "underForcedLiquidation" (.bool false) .nil))))
    (by
      intro p hp j hj
      simp [BrReg.REQUIREMENTS_TO_BE_VALID] at hp
      rcases hp with rfl | rfl | rfl | rfl <;>
        (simp [JsonObj.get] at hj; subst hj; rfl))).2).mpr (by decide)

/-- Lookup after a `HashMap::insert`: the inserted key reads back the new
value; other keys are unchanged. -/
theorem hinsert_get (m : Hash) (k k' : String) (v : Option String) :
    Hash.get (hinsert m k v) k' = if k' = k then some v else Hash.get m k' := by
  induction m with
  | nil =>
    by_cases h : k' = k
    · simp [hinsert, Hash.get, List.lookup, h]
    · have hb : (k' == k) = false := by simp [h]
      simp [hinsert, Hash.get, List.lookup, h, hb]
  | cons p t ih =>
    obtain ⟨pk, pv⟩ := p
    by_cases hpk : pk = k
    · subst hpk
      by_cases h : k' = pk
      · simp [hinsert, Hash.get, List.lookup, h]
      · have hb : (k' == pk) = false := by simp [h]
        simp [hinsert, Hash.get, List.lookup, h, hb]
    · have hins : hinsert ((pk, pv) :: t) k v = (pk, pv) :: hinsert t k v := by
        simp [hinsert, hpk]
      rw [hins]
      by_cases h2 : k' = pk
      · subst h2
        have hkk : k' ≠ k := fun hc => hpk (by rw [← hc])
        simp [Hash.get, List.lookup, hkk]
      · have hb2 : (k' == pk) = false := by simp [h2]
        simp only [Hash.get, List.lookup, hb2] at ih ⊢
        exact ih

/-- Keys never inserted by the flattening fold keep their initial value. -/
theorem foldl_hinsert_get_of_not_mem (l : List (String × Option String))
    (m : Hash) (k : String) (h : ∀ p ∈ l, p.1 ≠ k) :
    Hash.get (l.foldl (fun acc p => hinsert acc p.1 p.2) m) k = Hash.get m k := by
  induction l generalizing m with
  | nil => rfl
  | cons p t ih =>
    simp only [List.foldl_cons]
    rw [ih _ (fun q hq => h q (List.mem_cons_of_mem _ hq))]
    rw [hinsert_get]
    simp [Ne.symm (h p (List.mem_cons_self _ _))]

/-- When the inserted keys are pairwise distinct, each inserted pair reads
back its value after the fold. -/
theorem foldl_hinsert_get_nodup (l : List (String × Option String))
    (m : Hash) (k : String) (v : Option String)
    (hnd : (l.map Prod.fst).Nodup) (hmem : (k, v) ∈ l) :
    Hash.get (l.foldl (fun acc p => hinsert acc p.1 p.2) m) k = some v := by
  induction l generalizing m with
  | nil => cases hmem
  | cons p t ih =>
    simp only [List.foldl_cons]
    have hnd' : (t.map Prod.fst).Nodup := (List.nodup_cons.mp hnd).2
    rcases List.mem_cons.mp hmem with rfl | hmem'
    · have hnk : ∀ q ∈ t, q.1 ≠ (k, v).1 := by
        intro q hq hqk
        exact (List.nodup_cons.mp hnd).1
          (List.mem_map.mpr ⟨q, hq, hqk⟩)
      rw [foldl_hinsert_get_of_not_mem t _ (k, v).1 hnk, hinsert_get]
      simp
    · exact ih _ hnd' hmem'

/-- The per-node step of the VIES flattening, restated through `entryOf`. -/
theorem vies_hashStep_eq (m : Hash) (node : XmlNode) :
    Vies.hashStep m node =
      match Vies.entryOf node with
      | none => m
      | some p => hinsert m p.1 p.2 := by
  unfold Vies.hashStep Vies.entryOf
  by_cases hg : rustTrim node.tagName = "" ∨
      Vies.tags_to_exclude.contains node.tagName
  · rw [if_pos hg, if_pos hg]
  · rw [if_neg hg, if_neg hg]
    cases ht : node.nodeText with
    | none => rfl
    | some text =>
      by_cases hd : text = "---"
      · simp [hd]
      · simp [hd]

/-- The VIES flattening is the fold of `hinsert` over the retained
entries. -/
theorem vies_xml_to_hash_eq (doc : XmlNode) :
    Vies.xml_to_hash doc =
      (Vies.retained doc).foldl (fun acc p => hinsert acc p.1 p.2) [] := by
  suffices h : ∀ (ns : List XmlNode) (m : Hash),
      ns.foldl Vies.hashStep m =
        (ns.filterMap Vies.entryOf).foldl (fun acc p => hinsert acc p.1 p.2) m by
    exact h doc.descendants []
  intro ns
  induction ns with
  | nil => intro m; rfl
  | cons n t ih =>
    intro m
    simp only [List.foldl_cons, List.filterMap_cons]
    cases he : Vies.entryOf n with
    | none =>
      rw [show Vies.hashStep m n = m from by rw [vies_hashStep_eq, he]]
      exact ih m
    | some p =>
      rw [show Vies.hashStep m n = hinsert m p.1 p.2 from by
        rw [vies_hashStep_eq, he]]
      simp only [List.foldl_cons]
      exact ih _

/-- Every key the VIES flattening stores comes from a non-excluded tag. -/
theorem vies_retained_keys_not_excluded (doc : XmlNode) :
    ∀ p ∈ Vies.retained doc, p.1 ∉ Vies.tags_to_exclude := by
  intro p hp
  obtain ⟨node, _, he⟩ := List.mem_filterMap.mp hp
  unfold Vies.entryOf at he
  by_cases hg : rustTrim node.tagName = "" ∨
      Vies.tags_to_exclude.contains node.tagName
  · rw [if_pos hg] at he
    exact Option.noConfusion he
  · rw [if_neg hg] at he
    push_neg at hg
    cases ht : node.nodeText with
    | none =>
      rw [ht] at he
      exact Option.noConfusion he
    | some text =>
      rw [ht] at he
      simp only [Option.map_some'] at he
      injection he with he'
      have hkey : p.1 = node.tagName := by rw [← he']
      rw [hkey]
      intro hmem
      apply hg.2
      simpa using hmem

/-- **C6 (amended).** In `Vies::xml_to_hash`, provided no two retained
elements share a tag name, every element whose text is exactly `"---"` is
stored as an absent value (`None`), every element with any other text is
stored verbatim under its tag, and the structural tags `Body`, `Envelope`
and `Fault` are never keys of the map (the last holds unconditionally).
(As stated, the claim is false: with two retained elements sharing a tag,
`HashMap::insert` lets the later element overwrite the earlier one — see
the counterexample.) -/
theorem vies_xml_to_hash_amended :
    ∀ doc : XmlNode,
      (((Vies.retained doc).map Prod.fst).Nodup →
        (∀ node ∈ doc.descendants,
          rustTrim node.tagName ≠ "" → node.tagName ∉ Vies.tags_to_exclude →
          node.nodeText = some "---" →
          Hash.get (Vies.xml_to_hash doc) node.tagName = some none) ∧
        (∀ node ∈ doc.descendants, ∀ text,
          rustTrim node.tagName ≠ "" → node.tagName ∉ Vies.tags_to_exclude →
          node.nodeText = some text → text ≠ "---" →
          Hash.get (Vies.xml_to_hash doc) node.tagName = some (some text))) ∧
      Hash.get (Vies.xml_to_hash doc) "Body" = none ∧
      Hash.get (Vies.xml_to_hash doc) "Envelope" = none ∧
      Hash.get (Vies.xml_to_hash doc) "Fault" = none := by
  intro doc
  have hexcl : ∀ k : String, k ∈ Vies.tags_to_exclude →
      Hash.get (Vies.xml_to_hash doc) k = none := by
    intro k hk
    have hne : ∀ p ∈ Vies.retained doc, p.1 ≠ k := by
      intro p hp hpk
      exact vies_retained_keys_not_excluded doc p hp (by rw [hpk]; exact hk)
    rw [vies_xml_to_hash_eq, foldl_hinsert_get_of_not_mem _ _ _ hne]
    rfl
  refine ⟨?_, hexcl "Body" (by decide), hexcl "Envelope" (by decide),
    hexcl "Fault" (by decide)⟩
  intro hnd
  have hguard : ∀ node : XmlNode, rustTrim node.tagName ≠ "" →
      node.tagName ∉ Vies.tags_to_exclude →
      ¬(rustTrim node.tagName = "" ∨
        Vies.tags_to_exclude.contains node.tagName) := by
    intro node h1 h2
    push_neg
    exact ⟨h1, by simpa using h2⟩
  constructor
  · intro node hmem h1 h2 htext
    have hent : Vies.entryOf node = some (node.tagName, none) := by
      unfold Vies.entryOf
      rw [if_neg (hguard node h1 h2), htext]
      simp
    have hret : (node.tagName, (none : Option String)) ∈ Vies.retained doc :=
      List.mem_filterMap.mpr ⟨node, hmem, hent⟩
    rw [vies_xml_to_hash_eq]
    exact foldl_hinsert_get_nodup _ _ _ _ hnd hret
  · intro node hmem text h1 h2 htext hneq
    have hent : Vies.entryOf node = some (node.tagName, some text) := by
      unfold Vies.entryOf
      rw [if_neg (hguard node h1 h2), htext]
      simp [hneq]
    have hret : (node.tagName, some text) ∈ Vies.retained doc :=
      List.mem_filterMap.mpr ⟨node, hmem, hent⟩
    rw [vies_xml_to_hash_eq]
    exact foldl_hinsert_get_nodup _ _ _ _ hnd hret

/-- **C6 counterexample.** In the document
`<r><t>---</t><t>X</t></r>` the first `t` element has text exactly `"---"`
and is a retained element, yet the resulting map stores `t ↦ "X"` (the
later duplicate overwrites it), not an absent value, contradicting the
claim as stated. -/
theorem vies_xml_to_hash_counterexample :
    (XmlNode.elem "t" (.cons (.text "---") .nil)) ∈
      (XmlNode.elem "r" (.cons (.elem "t" (.cons (.text "---") .nil))
        (.cons (.elem "t" (.cons (.text "X") .nil)) .nil))).descendants ∧
    (XmlNode.elem "t" (.cons (.text "---") .nil)).nodeText = some "---" ∧
    rustTrim "t" ≠ "" ∧
    "t" ∉ Vies.tags_to_exclude ∧
    Hash.get (Vies.xml_to_hash
      (XmlNode.elem "r" (.cons (.elem "t" (.cons (.text "---") .nil))
        (.cons (.elem "t" (.cons (.text "X") .nil)) .nil)))) "t" =
      some (some "X") := by decide

/-- Witness for C6 (amended): in a duplicate-free document, a `"---"` text
is stored as `None` (not as the literal string). -/
theorem vies_xml_to_hash_amended_witness :
    Hash.get (Vies.xml_to_hash
      (XmlNode.elem "Envelope" (.cons (.elem "valid" (.cons (.text "true") .nil))
        (.cons (.elem "address" (.cons (.text "---") .nil)) .nil)))) "address" =
      some none :=
  (((vies_xml_to_hash_amended
      (XmlNode.elem "Envelope" (.cons (.elem "valid" (.cons (.text "true") .nil))
        (.cons (.elem "address" (.cons (.text "---") .nil)) .nil)))).1
    (by decide)).1
    (XmlNode.elem "address" (.cons (.text "---") .nil))
    (by decide) (by decide) (by decide) (by decide))
